/-
Verification of the smpub / smartpublisher repository against its
natural-language specification.

The development shallowly embeds the Python source:
  * `examples/demo_shop/sample_shop/dbop_plugin.py` (DbopPlugin._wrap_handler)
  * `src/smartpublisher/channels/cli_channel.py` (run, _handle_business_command,
    _split_cli_args)
  * `src/smartpublisher/channels/http_channel.py` (_http_method_for, endpoints)
  * `examples/demo_shop/sample_shop/sql/table.py` (PydanticExtrasPlugin.on_decore)
  * `src/smartpublisher/publisher.py` (Publisher add/remove/savestate/loadstate)

Python dicts are modelled as association lists with first-occurrence lookup and
in-place overwrite on re-insertion; Python exceptions as `Except`; file and
database side effects as explicit event lists or environment parameters.
-/

import Mathlib

namespace Smpub

/-! ## Python value model

A small universe of Python runtime values, sufficient for the keyword-argument
dictionaries handled by the dbop plugin (`None`, booleans, strings, integers,
cursor objects). -/

inductive PyVal where
  | none : PyVal
  | bool : Bool → PyVal
  | str : String → PyVal
  | int : Int → PyVal
  | cursor : Nat → PyVal
  deriving DecidableEq, Repr

/-- Python truthiness of a `PyVal` (`bool(v)`). -/
def PyVal.truthy : PyVal → Bool
  | .none => false
  | .bool b => b
  | .str s => s ≠ ""
  | .int n => n ≠ 0
  | .cursor _ => true

/-- Keyword-argument dictionary: association list, keys unique by construction
of the operations below. -/
abbrev Kwargs := List (String × PyVal)

/-- `kwargs.get(k)`: first binding wins (keys are unique in a Python dict). -/
def kwGet (kw : Kwargs) (k : String) : Option PyVal :=
  (kw.find? (fun p => p.1 = k)).map (·.2)

/-- `kwargs[k] = v`: overwrite in place if the key exists (Python dicts keep
the original insertion position), else append. -/
def kwSet (kw : Kwargs) (k : String) (v : PyVal) : Kwargs :=
  match kw with
  | [] => [(k, v)]
  | (k', v') :: rest =>
      if k' = k then (k', v) :: rest else (k', v') :: kwSet rest k v

/-! ## DbopPlugin._wrap_handler (examples/demo_shop/sample_shop/dbop_plugin.py)

The wrapper manages a database resource exposing `.cursor()`, `.commit()`,
`.rollback()`.  We record the calls made on the resource as an event trace and
model the inner business function as a parameter from the (argument list,
final kwargs) to an `Except` outcome. -/

/-- Calls observed on the handler instance's `db` resource. -/
inductive DbEvent where
  | cursorCall : DbEvent
  | commit : DbEvent
  | rollback : DbEvent
  deriving DecidableEq, Repr

/-- The `db` attribute of the handler instance: what `.cursor()` returns and
whether `.rollback()` itself raises. -/
structure Db where
  cursorVal : PyVal
  rollbackRaises : Bool

/-- The handler instance seen by the wrapper: whether it has a `db` attribute,
and the resource itself. -/
structure HandlerInstance where
  hasDb : Bool
  db : Db

/-- Python exceptions relevant to the wrapper. -/
inductive PyExc where
  | typeError : String → PyExc
  | attributeError : String → PyExc
  | userExc : Nat → PyExc
  deriving DecidableEq, Repr

/-- Outcome of one wrapped call: the events issued on `db` (in order) and the
value returned or the exception propagated. -/
structure DbopOutcome where
  events : List DbEvent
  result : Except PyExc PyVal
  deriving Repr

/-- The kwargs actually passed to the inner function: `cursor` is injected from
`db.cursor()` when absent from kwargs or bound to `None`
(dbop_plugin.py lines 75-76). -/
def dbopEffectiveKwargs (db : Db) (kwargs : Kwargs) : Kwargs :=
  if kwGet kwargs "cursor" = Option.none ∨ kwGet kwargs "cursor" = some PyVal.none then
    kwSet kwargs "cursor" db.cursorVal
  else kwargs

/-- Whether the injection branch fires (the condition of line 75). -/
def dbopInjects (kwargs : Kwargs) : Bool :=
  kwGet kwargs "cursor" = Option.none ∨ kwGet kwargs "cursor" = some PyVal.none

/-- `DbopPlugin._wrap_handler`'s wrapper (dbop_plugin.py lines 55-96).

`inner` is the wrapped business function, invoked on the positional arguments
and the (possibly cursor-injected) kwargs; `funcName` is `func.__name__`. -/
def dbopWrapper (funcName : String)
    (inner : List PyVal → Kwargs → Except PyExc PyVal)
    (args : List PyVal) (instance_ : HandlerInstance)
    (kwargs : Kwargs) : DbopOutcome :=
  match args with
  | [] =>
      { events := [],
        result := .error (.typeError
          (funcName ++ "() missing required positional argument: 'self'")) }
  | _ :: _ =>
      if ¬ instance_.hasDb then
        { events := [],
          result := .error (.attributeError
            "instance must have 'db' attribute for DbopPlugin to work") }
      else
        let db := instance_.db
        let autocommit := (match kwGet kwargs "autocommit" with
          | some v => v
          | Option.none => PyVal.bool false).truthy
        let injected := dbopInjects kwargs
        let kwargs' := dbopEffectiveKwargs db kwargs
        let cursorEvents := if injected then [DbEvent.cursorCall] else []
        match inner args kwargs' with
        | .ok r =>
            if autocommit then
              { events := cursorEvents ++ [DbEvent.commit], result := .ok r }
            else
              { events := cursorEvents, result := .ok r }
        | .error e =>
            -- try: db.rollback() / except: pass (lines 90-93): the outcome of
            -- the rollback attempt is computed and then discarded, so the
            -- original exception is re-raised either way.
            let _rollbackOutcome : Except PyExc Unit :=
              if db.rollbackRaises then .error (.userExc 0) else .ok ()
            { events := cursorEvents ++ [DbEvent.rollback], result := .error e }

/-! ## Generic string-keyed dictionaries

Used for CLI keyword maps, router registries and JSON objects. -/

/-- `d.get(k)`: first binding wins. -/
def dictGet {α : Type} (d : List (String × α)) (k : String) : Option α :=
  (d.find? (fun p => p.1 = k)).map (·.2)

/-- `d[k] = v`: overwrite in place keeping the original position, else append. -/
def dictSet {α : Type} (d : List (String × α)) (k : String) (v : α) :
    List (String × α) :=
  match d with
  | [] => [(k, v)]
  | (k', v') :: rest =>
      if k' = k then (k', v) :: rest else (k', v') :: dictSet rest k v

/-- `d.pop(k, None)`: drop the binding for `k`. -/
def dictRemove {α : Type} (d : List (String × α)) (k : String) :
    List (String × α) :=
  d.filter (fun p => p.1 ≠ k)

/-! ## Python string primitives

Python strings are sequences of code points, so `startswith` and slicing are
modelled on the character list underlying a Lean `String`. -/

/-- Python's `s.startswith(pre)`. -/
def pyStartsWith (s pre : String) : Bool :=
  pre.toList.isPrefixOf s.toList

/-- Python's `s[n:]`. -/
def pyDrop (s : String) (n : Nat) : String :=
  String.mk (s.toList.drop n)

/-! ## CLIChannel._split_cli_args (cli_channel.py lines 550-578) -/

/-- Split a character list at the first `'='`, like Python's
`option.split("=", 1)` when an `'='` is present. -/
def splitFirstEqAux : List Char → Option (List Char × List Char)
  | [] => Option.none
  | c :: cs =>
      if c = '=' then some ([], cs)
      else (splitFirstEqAux cs).map (fun p => (c :: p.1, p.2))

/-- `option.split("=", 1)` as `(key, value)`; `none` when `"=" not in option`. -/
def splitFirstEq (s : String) : Option (String × String) :=
  (splitFirstEqAux s.toList).map (fun p => (String.mk p.1, String.mk p.2))

/-- The loop of `_split_cli_args` over the token iterator, carrying the
`positional` and `keyword` accumulators. -/
def splitCliGo : List String → List String → List (String × String) →
    Except String (List String × List (String × String))
  | [], pos, kw => .ok (pos, kw)
  | t :: rest, pos, kw =>
      if t = "--" then
        -- positional.extend(iterator); break
        .ok (pos ++ rest, kw)
      else if pyStartsWith t "--" then
        let option := pyDrop t 2
        if option = "" then .error "Option name cannot be empty"
        else
          match splitFirstEq option with
          | some (key, value) => splitCliGo rest pos (dictSet kw key value)
          | Option.none =>
              match rest with
              | [] => .error ("Missing value for option '--" ++ option ++ "'")
              | v :: rest' => splitCliGo rest' pos (dictSet kw option v)
      else splitCliGo rest (pos ++ [t]) kw
  termination_by ts _ _ => ts.length
  decreasing_by all_goals simp_arith

/-- `CLIChannel._split_cli_args`. -/
def splitCliArgs (tokens : List String) :
    Except String (List String × List (String × String)) :=
  splitCliGo tokens [] []

/-! ## CLIChannel.run dispatch (cli_channel.py lines 83-125) -/

/-- The branch `CLIChannel.run` takes for a given argument vector. -/
inductive RunAction where
  | completion (rest : List String)
  | generalHelp
  | unknownRootCommand (name : String)
  | rootCommand (name : String) (rest : List String)
  | handlerHelp (name : String)
  | systemCommand (method : String) (rest : List String)
  | businessCommand (handler : String) (method : String) (rest : List String)
  deriving DecidableEq, Repr

/-- `CLIChannel.run(args)` dispatch structure.  `rootMethods` is the set of
publisher methods whose names start with `/` (`_get_root_methods`). -/
def cliRun (rootMethods : List String) (args : List String) : RunAction :=
  match args with
  | [] => .generalHelp
  | a0 :: rest =>
      if a0 = "--complete" then .completion rest
      else if a0 = "--help" ∨ a0 = "-h" then .generalHelp
      else if pyStartsWith a0 "/" then
        if ¬ a0 ∈ rootMethods then .unknownRootCommand a0
        else .rootCommand a0 rest
      else
        match rest with
        | [] => .handlerHelp a0
        | m :: margs =>
            if a0 = "_system" then .systemCommand m margs
            else .businessCommand a0 m margs

/-! ## CLIChannel._handle_business_command (cli_channel.py lines 506-548) -/

/-- A published handler as the CLI sees it: whether it exposes an `api`
attribute, which method names `api.get` resolves (`get` raises for others,
with some message), the formatted help text, and the formatted outcome of
invoking a method (`.error` = the exception message raised by the call). -/
structure CliHandler where
  hasApi : Bool
  get : String → Except String Unit
  describeOut : String
  invoke : String → List String → List (String × String) → Except String String

/-- What one CLI command handler execution does: the lines printed, and
`some 1` when `sys.exit(1)` runs (`none` = plain return, process exit 0). -/
structure CliEffect where
  lines : List String
  exitCode : Option Nat
  deriving DecidableEq, Repr

/-- `CLIChannel._handle_business_command(handler_name, method_name, method_args)`.
`handlers` is `publisher.get_handlers(...)`, whose key list is also what
`publisher.list_handlers(...)` reports. -/
def handleBusinessCommand (handlers : List (String × CliHandler))
    (handlerName : String) (methodName : Option String)
    (methodArgs : List String) : CliEffect :=
  match dictGet handlers handlerName with
  | Option.none =>
      { lines := ["Error: Handler '" ++ handlerName ++ "' not found",
                  "Available: " ++ String.intercalate ", " (handlers.map (·.1))],
        exitCode := Option.none }
  | some inst =>
      if ¬ inst.hasApi then
        { lines := ["Error: Handler '" ++ handlerName ++ "' has no API"],
          exitCode := Option.none }
      else
        match methodName with
        | Option.none => { lines := [inst.describeOut], exitCode := Option.none }
        | some m =>
            -- try: api.get, _split_cli_args, call; except e: print + sys.exit(1)
            match inst.get m with
            | .error e => { lines := ["Error: " ++ e], exitCode := some 1 }
            | .ok _ =>
                match splitCliArgs methodArgs with
                | .error e => { lines := ["Error: " ++ e], exitCode := some 1 }
                | .ok (pos, kw) =>
                    match inst.invoke m pos kw with
                    | .error e => { lines := ["Error: " ++ e], exitCode := some 1 }
                    | .ok out => { lines := [out], exitCode := Option.none }

/-! ## JSON values

Used by the HTTP body forwarding and by the Publisher state snapshot. -/

inductive JValue where
  | null : JValue
  | bool : Bool → JValue
  | num : Int → JValue
  | str : String → JValue
  | arr : List JValue → JValue
  | obj : List (String × JValue) → JValue
  deriving Repr

/-- Field lookup on a JSON object (`none` on non-objects). -/
def JValue.lookup : JValue → String → Option JValue
  | .obj fields, k => dictGet fields k
  | _, _ => Option.none

/-- `isinstance(v, list)`. -/
def JValue.isList : JValue → Bool
  | .arr _ => true
  | _ => false

/-! ## PublisherHTTP (http_channel.py)

`_http_method_for` (lines 360-361) and the endpoint closures of
`create_fastapi_app` (lines 364-423). -/

/-- `_http_method_for(name)`. -/
def httpMethodFor (name : String) : String :=
  if name ∈ ["list", "get", "describe", "getapp", "members"] then "get" else "post"

/-- `handler_name.lstrip("/") or handler_name`. -/
def lstripSlashOrSelf (s : String) : String :=
  let stripped := String.mk (s.toList.dropWhile (· = '/'))
  if stripped = "" then s else stripped

/-- Child-handler metadata from `publisher.api.members(...)`: whether an
instance with an `api` attribute is present, and its method names. -/
structure HttpChildMeta where
  hasInstanceApi : Bool
  methods : List String

/-- The `(verb, path)` routes `create_fastapi_app` registers for the business
handlers (the `for handler_name ... for method_name ...` loops,
lines 390-423): one route per method, via `app.get` when
`_http_method_for` says `"get"` and `app.post` otherwise. -/
def httpChildRoutes (children : List (String × HttpChildMeta)) :
    List (String × String) :=
  children.foldr
    (fun child acc =>
      if child.2.hasInstanceApi then
        (child.2.methods.map (fun m =>
          (httpMethodFor m,
           "/" ++ lstripSlashOrSelf child.1 ++ "/" ++ m))) ++ acc
      else acc)
    []

/-- An endpoint closure body: `kwargs = await request.json()` with `{}` on
failure, then `method_callable(**kwargs)`.  `body` is the parsed JSON body
(`none` when `request.json()` raises), `call` the resolved callable. -/
def httpEndpoint {R : Type} (call : List (String × JValue) → R)
    (body : Option (List (String × JValue))) : R :=
  call (match body with
    | some kwargs => kwargs
    | Option.none => [])

/-! ## PydanticExtrasPlugin.on_decore
(examples/demo_shop/sample_shop/sql/table.py lines 54-84) -/

/-- One parameter of a Python function signature: its name, its type
annotation if any (annotations modelled as strings), and its default if any
(`none` = `inspect.Parameter.empty`). -/
structure PyParam where
  name : String
  ann : Option String
  default : Option PyVal
  deriving DecidableEq, Repr

/-- A Python function signature: parameters in declaration order, plus the
return annotation if any. -/
structure FuncSig where
  params : List PyParam
  retAnn : Option String
  deriving DecidableEq, Repr

/-- The annotated parameters of a signature paired with their hints, in
declaration order (what `get_type_hints` reports for parameters). -/
def annotatedParams (sig : FuncSig) : List (PyParam × String) :=
  sig.params.filterMap (fun p => p.ann.map (fun a => (p, a)))

/-- `typing.get_type_hints(func, include_extras=True)`: the annotated
parameters in order plus the `"return"` key; `none` when hint resolution
raises (`resolvable = false`). -/
def getTypeHints (resolvable : Bool) (sig : FuncSig) :
    Option (List (String × String)) :=
  if resolvable then
    some ((sig.params.filterMap (fun p => p.ann.map (fun a => (p.name, a))))
      ++ (match sig.retAnn with
          | some a => [("return", a)]
          | Option.none => []))
  else Option.none

/-- One field of the built pydantic model: `(hint, ...)` when required
(`default = none`), `(hint, default)` otherwise. -/
structure PydField where
  name : String
  hint : String
  default : Option PyVal
  deriving DecidableEq, Repr

/-- What `on_decore` stores in `entry.metadata["pydantic"]`:
`{"enabled": False}` or the enabled record with the built model's fields. -/
inductive PydanticMeta where
  | disabled : PydanticMeta
  | enabled : List PydField → PydanticMeta
  deriving DecidableEq, Repr

/-- `PydanticExtrasPlugin.on_decore(route, func, entry)` (table.py 54-84),
as the value stored in `entry.metadata["pydantic"]`. -/
def onDecore (resolvable : Bool) (sig : FuncSig) : PydanticMeta :=
  match getTypeHints resolvable sig with
  | Option.none => .disabled
  | some hints0 =>
      let hints := hints0.filter (fun p => p.1 ≠ "return")  -- hints.pop("return", None)
      if hints.isEmpty then .disabled
      else
        .enabled (hints.map (fun nh =>
          match sig.params.find? (fun p => p.name = nh.1) with
          | Option.none => { name := nh.1, hint := nh.2, default := Option.none }
          | some p =>
              match p.default with
              | Option.none => { name := nh.1, hint := nh.2, default := Option.none }
              | some d => { name := nh.1, hint := nh.2, default := some d }))

/-! ## Publisher (src/smartpublisher/publisher.py)

Application instances are abstracted to numeric identities; the
`AppManager.load` import machinery is a parameter (it may raise).  `savestate`
writes a file, which mutates no registry field, so the registry-level
operations below return the new registry state (plus the returned dict or the
raised exception); the written payload is modelled separately by
`writeStatePayload`. -/

/-- The metadata dict built by `AppManager.load` (publisher.py lines 75-79). -/
structure AppMetadata where
  path : String
  module : String
  className : String
  deriving DecidableEq, Repr

/-- One `self._state[name]` record (publisher.py lines 229-233). -/
structure StateEntry where
  spec : String
  args : List JValue
  kwargs : List (String × JValue)
  deriving Repr

/-- The Publisher's registry fields (`applications`, `_metadata`, `_state`,
the root router's children, `_autosave`). -/
structure PubState where
  applications : List (String × Nat)
  metadata : List (String × AppMetadata)
  state : List (String × StateEntry)
  children : List (String × Nat)
  autosave : Bool
  deriving Repr

/-- The empty registry of a freshly constructed Publisher. -/
def PubState.initial (autosave : Bool) : PubState :=
  { applications := [], metadata := [], state := [], children := [],
    autosave := autosave }

/-- `AppManager.load`: importing and instantiating the spec may raise; on
success it yields the instance and its metadata. -/
abbrev AppLoader :=
  String → List JValue → List (String × JValue) → Except String (Nat × AppMetadata)

/-- `Publisher.add(name, spec, *app_args, **app_kwargs)`
(publisher.py lines 208-239).  `.error` is a raised exception; mutation
happens only after both name checks and a successful load, exactly as in the
source. -/
def pubAdd (loader : AppLoader) (s : PubState) (name spec : String)
    (appArgs : List JValue) (appKwargs : List (String × JValue)) :
    Except String (PubState × JValue) :=
  if name ∈ s.applications.map (·.1) then
    .error ("App '" ++ name ++ "' already registered")
  else if pyStartsWith name "/" then
    .error "App names cannot start with '/' because those are reserved commands"
  else
    match loader spec appArgs appKwargs with
    | .error e => .error e
    | .ok (app, md) =>
        .ok ({ applications := dictSet s.applications name app,
               metadata := dictSet s.metadata name md,
               state := dictSet s.state name
                 { spec := spec, args := appArgs, kwargs := appKwargs },
               children := dictSet s.children name app,
               autosave := s.autosave },
             .obj [("status", .str "registered"), ("name", .str name),
                   ("path", .str md.path), ("module", .str md.module),
                   ("class", .str md.className)])

/-- `Publisher.remove(name)` (publisher.py lines 241-259): unknown names get
an error dict (no exception), known names are popped from every registry map
and detached from the router. -/
def pubRemove (s : PubState) (name : String) : PubState × JValue :=
  if ¬ name ∈ s.applications.map (·.1) then
    (s, .obj [("error", .str "App not found"), ("name", .str name),
              ("available", .arr (s.applications.map (fun p => .str p.1)))])
  else
    ({ applications := dictRemove s.applications name,
       metadata := dictRemove s.metadata name,
       state := dictRemove s.state name,
       children := dictRemove s.children name,
       autosave := s.autosave },
     .obj [("status", .str "removed"), ("name", .str name)])

/-- The JSON payload `Publisher._write_state` serialises
(publisher.py lines 423-430). -/
def writeStatePayload (s : PubState) : JValue :=
  .obj [("version", .num 1),
        ("autosave", .bool s.autosave),
        ("apps", .arr (s.state.map (fun nst =>
          .obj [("name", .str nst.1),
                ("spec", .str nst.2.spec),
                ("args", .arr nst.2.args),
                ("kwargs", .obj nst.2.kwargs)])))]

/-! ### Publisher operation sequences

Used to state registry invariants over arbitrary `/add` / `/remove`
histories.  Each `add` carries the outcome of its `AppManager.load` call. -/

/-- One registry operation issued against a Publisher. -/
inductive PubOp where
  | add (name spec : String) (args : List JValue)
        (kwargs : List (String × JValue))
        (loadResult : Except String (Nat × AppMetadata)) : PubOp
  | remove (name : String) : PubOp

/-- Execute one operation: a raised exception from `add` leaves the registry
exactly as it was (no mutation precedes the checks in the source). -/
def runOp (s : PubState) : PubOp → PubState
  | .add name spec args kwargs loadResult =>
      match pubAdd (fun _ _ _ => loadResult) s name spec args kwargs with
      | .ok (s', _) => s'
      | .error _ => s
  | .remove name => (pubRemove s name).1

/-- Execute a history of operations from a given registry. -/
def runOps (s : PubState) (ops : List PubOp) : PubState := ops.foldl runOp s

/-- Registry sanity: `_state` tracks exactly the registered application names
(so `savestate` emits one entry per app), and no registered name is a
reserved `/` name. -/
def PubState.wellFormed (s : PubState) : Prop :=
  s.state.map (·.1) = s.applications.map (·.1) ∧
  ∀ k ∈ s.applications.map (·.1), pyStartsWith k "/" = false

/-! ### Publisher.loadstate (publisher.py lines 303-349)

File reading and JSON parsing are environment inputs: `FileSource.missing`
when `source.exists()` is false, `.invalid` when `json.loads` raises, and
`.parsed doc` otherwise.  The membership test `"apps" not in snapshot` and
the subscript `snapshot["apps"]` follow Python semantics on each value
shape (`in` on a non-container raises `TypeError`). -/

/-- Outcome of reading and parsing the state file. -/
inductive FileSource where
  | missing : FileSource
  | invalid (msg : String) : FileSource
  | parsed (doc : JValue) : FileSource

/-- Substring test on character lists (Python's `needle in haystack` for
strings; the empty needle is always contained). -/
def charsContain (hay needle : List Char) : Bool :=
  needle.isPrefixOf hay ||
    match hay with
    | [] => false
    | _ :: t => charsContain t needle

/-- Python's `"k" in v` for JSON-decoded values: key membership on dicts,
element membership on lists, substring on strings, `TypeError` otherwise. -/
def pyContainsStr (v : JValue) (k : String) : Except String Bool :=
  match v with
  | .obj fields => .ok (k ∈ fields.map (·.1))
  | .arr xs => .ok (xs.any (fun x => match x with
      | .str s => s = k
      | _ => false))
  | .str s => .ok (charsContain s.toList k.toList)
  | _ => .error "TypeError: argument of type 'int' is not iterable"

/-- Python's `v["k"]` for JSON-decoded values: dict lookup (KeyError when
missing), `TypeError` on every other shape. -/
def pySubscriptStr (v : JValue) (k : String) : Except String JValue :=
  match v with
  | .obj fields =>
      match dictGet fields k with
      | some x => .ok x
      | Option.none => .error ("KeyError: '" ++ k ++ "'")
  | .str _ => .error "TypeError: string indices must be integers"
  | .arr _ => .error "TypeError: list indices must be integers or slices, not str"
  | _ => .error "TypeError: object is not subscriptable"

/-- `entry.get("args", [])` decoded to app constructor arguments: a JSON
array's elements, or the value itself... in the source the decoded value is
splatted with `*args`, so we keep the array elements (non-arrays do not occur
in payloads written by `_write_state`; splatting a non-iterable would raise,
modelled as the empty spread is never taken: see `loadEntry`). -/
def jsonArgsOf : JValue → Option (List JValue)
  | .arr xs => some xs
  | _ => Option.none

/-- Load one `snapshot["apps"]` entry via `self.add` (lines 328-334): missing
`"name"`/`"spec"` keys raise `KeyError`; `args`/`kwargs` default to `[]`/`{}`;
non-string or non-splattable shapes raise `TypeError`. -/
def loadEntry (loader : AppLoader) (s : PubState) (entry : JValue) :
    Except String (PubState × JValue) :=
  match entry.lookup "name" with
  | Option.none =>
      match entry with
      | .obj _ => .error "KeyError: 'name'"
      | _ => .error "TypeError: entry is not subscriptable"
  | some nameV =>
      match nameV with
      | .str name =>
          match entry.lookup "spec" with
          | Option.none => .error "KeyError: 'spec'"
          | some specV =>
              match specV with
              | .str spec =>
                  let args := match entry.lookup "args" with
                    | some v => jsonArgsOf v
                    | Option.none => some []
                  let kwargs : Option (List (String × JValue)) :=
                    match entry.lookup "kwargs" with
                    | some (.obj fields) => some fields
                    | some _ => Option.none
                    | Option.none => some []
                  match args, kwargs with
                  | some a, some kv => pubAdd loader s name spec a kv
                  | _, _ => .error "TypeError: argument unpacking failed"
              | _ => .error "TypeError: spec must be a string"
      | _ => .error "TypeError: name must be a string"

/-- The `for entry in snapshot["apps"]` loop (lines 328-339): rebuild via
`add`, collecting failures when `skip_missing` is set and re-raising
otherwise. -/
def loadApps (loader : AppLoader) (skipMissing : Bool) :
    List JValue → PubState → List JValue →
    PubState × Except String (List JValue)
  | [], s, failed => (s, .ok failed.reverse)
  | entry :: rest, s, failed =>
      match loadEntry loader s entry with
      | .ok (s', _) => loadApps loader skipMissing rest s' failed
      | .error e =>
          if skipMissing then
            loadApps loader skipMissing rest s
              (.obj [("error", .str e)] :: failed)
          else
            -- re-raise: apps added so far stay registered
            (s, .error e)

/-- `Publisher.loadstate(path, skip_missing)` (lines 303-349).  Returns the
registry after the call together with the returned dict, or the raised
exception (in which case the first component is the registry at the moment of
the raise).  `pathStr` is `str(source)`. -/
def loadstate (loader : AppLoader) (s : PubState) (pathStr : String)
    (source : FileSource) (skipMissing : Bool) :
    PubState × Except String JValue :=
  match source with
  | .missing =>
      (s, .ok (.obj [("error", .str "State file not found"),
                     ("path", .str pathStr)]))
  | .invalid msg =>
      (s, .ok (.obj [("error", .str ("Invalid state file: " ++ msg)),
                     ("path", .str pathStr)]))
  | .parsed snapshot =>
      -- if "apps" not in snapshot or not isinstance(snapshot["apps"], list)
      match pyContainsStr snapshot "apps" with
      | .error e => (s, .error e)
      | .ok false =>
          (s, .ok (.obj [("error", .str "Malformed state: missing 'apps' list"),
                         ("path", .str pathStr)]))
      | .ok true =>
          match pySubscriptStr snapshot "apps" with
          | .error e => (s, .error e)
          | .ok (.arr entries) =>
              -- with self._suspend_autosave(): self._clear_registry(); ...
              let cleared : PubState :=
                { applications := [], metadata := [], state := [],
                  children := [], autosave := s.autosave }
              (match loadApps loader skipMissing entries cleared [] with
               | (s', .error e) => (s', .error e)
               | (s', .ok failed) =>
                   (s', .ok (.obj
                     [("status", .str "loaded"),
                      ("path", .str pathStr),
                      ("total", .num s'.applications.length),
                      ("skipped", .arr failed)])))
          | .ok _ =>
              -- not isinstance(snapshot["apps"], list)
              (s, .ok (.obj [("error",
                              .str "Malformed state: missing 'apps' list"),
                             ("path", .str pathStr)]))

/-! # Theorems -/

/-! ### String and splitter helper lemmas -/

theorem string_mk_toList (s : String) : String.mk s.toList = s := rfl

theorem pyStartsWith_append (pre s : String) :
    pyStartsWith (pre ++ s) pre = true := by
  simp [pyStartsWith, List.isPrefixOf_iff_prefix]

theorem append_ne_of_ne_empty (pre key : String) (h : key ≠ "") :
    (pre ++ key) ≠ pre := by
  intro hc
  apply h
  have h2 := congrArg String.toList hc
  exact String.ext (by simpa using h2)

theorem pyDrop_two_dashdash (key : String) : pyDrop ("--" ++ key) 2 = key := by
  simp [pyDrop]

theorem splitFirstEqAux_not_mem (l : List Char) (h : ¬ '=' ∈ l) :
    splitFirstEqAux l = Option.none := by
  induction l with
  | nil => rfl
  | cons c cs ih =>
      simp only [List.mem_cons, not_or] at h
      have hc : ¬ c = '=' := fun hcc => h.1 hcc.symm
      simp [splitFirstEqAux, hc, ih h.2]

theorem splitFirstEqAux_append (l r : List Char) (h : ¬ '=' ∈ l) :
    splitFirstEqAux (l ++ '=' :: r) = some (l, r) := by
  induction l with
  | nil => simp [splitFirstEqAux]
  | cons c cs ih =>
      simp only [List.mem_cons, not_or] at h
      have hc : ¬ c = '=' := fun hcc => h.1 hcc.symm
      simp [splitFirstEqAux, hc, ih h.2]

theorem splitFirstEq_of_append (key value : String) (h : ¬ '=' ∈ key.toList) :
    splitFirstEq (key ++ "=" ++ value) = some (key, value) := by
  have ht : (key ++ "=" ++ value).toList = key.toList ++ '=' :: value.toList := by
    simp
  have h2 := splitFirstEqAux_append key.toList value.toList h
  unfold splitFirstEq
  rw [ht, h2]
  rfl

theorem splitFirstEq_of_not_mem (key : String) (h : ¬ '=' ∈ key.toList) :
    splitFirstEq key = Option.none := by
  have h2 := splitFirstEqAux_not_mem key.toList h
  unfold splitFirstEq
  rw [h2]
  rfl

/-- Unfolding equation of `splitCliGo` on a cons cell (the well-founded
recursion hides the defining equation behind `WellFounded.fix`). -/
theorem splitCliGo_cons (t : String) (rest pos : List String)
    (kw : List (String × String)) :
    splitCliGo (t :: rest) pos kw =
      (if t = "--" then .ok (pos ++ rest, kw)
      else if pyStartsWith t "--" then
        let option := pyDrop t 2
        if option = "" then .error "Option name cannot be empty"
        else
          match splitFirstEq option with
          | some (key, value) => splitCliGo rest pos (dictSet kw key value)
          | Option.none =>
              match rest with
              | [] => .error ("Missing value for option '--" ++ option ++ "'")
              | v :: rest' => splitCliGo rest' pos (dictSet kw option v)
      else splitCliGo rest (pos ++ [t]) kw) := by
  rw [splitCliGo]

/-- C4: the CLI token splitter returns a `(positional, keyword)` pair where a
`--key=value` token binds `key` to `value`, a `--key` token binds `key` to the
next token (`ValueError` when none follows), everything after a bare `--` is
taken as literal positionals, and other tokens are positional in order.  Each
conjunct characterizes one step of the splitter's loop; keys are nonempty and
`=`-free in the `--key` forms (an empty option name cannot reach the option
branch, since the bare token `--` is consumed by the separator rule first). -/
theorem split_cli_args_characterization :
    (splitCliArgs [] = .ok ([], [])) ∧
    (∀ pos kw rest, splitCliGo ("--" :: rest) pos kw = .ok (pos ++ rest, kw)) ∧
    (∀ pos kw rest key value, key ≠ "" → ¬ '=' ∈ key.toList →
      splitCliGo (("--" ++ (key ++ "=" ++ value)) :: rest) pos kw =
        splitCliGo rest pos (dictSet kw key value)) ∧
    (∀ pos kw rest key v, key ≠ "" → ¬ '=' ∈ key.toList →
      splitCliGo (("--" ++ key) :: v :: rest) pos kw =
        splitCliGo rest pos (dictSet kw key v)) ∧
    (∀ pos kw key, key ≠ "" → ¬ '=' ∈ key.toList →
      splitCliGo [("--" ++ key)] pos kw =
        .error ("Missing value for option '--" ++ key ++ "'")) ∧
    (∀ pos kw rest t, pyStartsWith t "--" = false →
      splitCliGo (t :: rest) pos kw = splitCliGo rest (pos ++ [t]) kw) := by
  refine ⟨by unfold splitCliArgs; rw [splitCliGo], ?_, ?_, ?_, ?_, ?_⟩
  · intro pos kw rest
    rw [splitCliGo_cons]
    simp
  · intro pos kw rest key value hk hmem
    have hne : ¬ (key ++ "=" ++ value) = "" := by
      intro hc
      have h2 := congrArg String.toList hc
      simp at h2
    rw [splitCliGo_cons]
    simp [append_ne_of_ne_empty "--" _ hne, pyStartsWith_append,
      pyDrop_two_dashdash, hne, splitFirstEq_of_append _ _ hmem]
  · intro pos kw rest key v hk hmem
    rw [splitCliGo_cons]
    simp [append_ne_of_ne_empty "--" _ hk, pyStartsWith_append,
      pyDrop_two_dashdash, hk, splitFirstEq_of_not_mem _ hmem]
  · intro pos kw key hk hmem
    rw [splitCliGo_cons]
    simp [append_ne_of_ne_empty "--" _ hk, pyStartsWith_append,
      pyDrop_two_dashdash, hk, splitFirstEq_of_not_mem _ hmem]
  · intro pos kw rest t h
    have ht : ¬ t = "--" := by
      intro hc
      subst hc
      exact absurd h (by decide)
    rw [splitCliGo_cons]
    simp [ht, h]

/-- Closed witness for `split_cli_args_characterization`: every hypothesis of
its conjuncts discharged at concrete tokens, chained into a full run of the
splitter. -/
theorem split_cli_args_characterization_witness :
    splitCliArgs ["a", "--k=v", "--x", "y", "--", "--z", "b"] =
      .ok (["a", "--z", "b"], [("k", "v"), ("x", "y")]) := by
  have h := split_cli_args_characterization
  have h6 := h.2.2.2.2.2 [] [] ["--k=v", "--x", "y", "--", "--z", "b"] "a"
    (by decide)
  have h3 := h.2.2.1 ["a"] [] ["--x", "y", "--", "--z", "b"] "k" "v"
    (by decide) (by decide)
  have h4 := h.2.2.2.1 ["a"] [("k", "v")] ["--", "--z", "b"] "x" "y"
    (by decide) (by decide)
  have h2 := h.2.1 ["a"] [("k", "v"), ("x", "y")] ["--z", "b"]
  show splitCliGo ["a", "--k=v", "--x", "y", "--", "--z", "b"] [] [] = _
  rw [h6]
  have e3 : ("--" ++ ("k" ++ "=" ++ "v")) = "--k=v" := by decide
  have e4 : ("--" ++ "x") = "--x" := by decide
  rw [e3] at h3
  rw [e4] at h4
  simp only [List.nil_append]
  rw [h3]
  show splitCliGo ["--x", "y", "--", "--z", "b"] ["a"] [("k", "v")] = _
  rw [h4]
  show splitCliGo ["--", "--z", "b"] ["a"] [("k", "v"), ("x", "y")] = _
  rw [h2]
  rfl

/-! ### C3: unknown handler on the CLI -/

/-- A concrete published handler used to instantiate the CLI claims. -/
def calcHandler : CliHandler :=
  { hasApi := true,
    get := fun m => if m = "sum" then .ok () else .error ("Method '" ++ m ++ "' not found"),
    describeOut := "calc help",
    invoke := fun _ _ _ => .ok "42" }

/-- C3 counterexample: with only `calc` registered, `app shop list` prints the
`Error:`/`Available:` lines but `_handle_business_command` returns without
calling `sys.exit`, so the process exits 0 — refuting the claimed non-zero
exit code. -/
theorem cli_unknown_handler_exit_counterexample :
    (handleBusinessCommand [("calc", calcHandler)] "shop" (some "list") []).lines =
      ["Error: Handler 'shop' not found", "Available: calc"] ∧
    (handleBusinessCommand [("calc", calcHandler)] "shop" (some "list") []).exitCode =
      Option.none := by
  exact ⟨rfl, rfl⟩

/-- C3 amended: for an unregistered handler name the CLI prints exactly the
`Error: Handler '<name>' not found` line and the `Available:` line listing the
registered names, and returns normally (no `sys.exit`, process exit code 0). -/
theorem cli_unknown_handler_message (handlers : List (String × CliHandler))
    (handlerName : String) (methodName : Option String) (methodArgs : List String)
    (h : dictGet handlers handlerName = Option.none) :
    handleBusinessCommand handlers handlerName methodName methodArgs =
      { lines := ["Error: Handler '" ++ handlerName ++ "' not found",
                  "Available: " ++ String.intercalate ", " (handlers.map (·.1))],
        exitCode := Option.none } := by
  simp [handleBusinessCommand, h]

/-- Closed witness for `cli_unknown_handler_message`. -/
theorem cli_unknown_handler_message_witness :
    handleBusinessCommand [("calc", calcHandler)] "shop" (some "list") ["--x", "1"] =
      { lines := ["Error: Handler 'shop' not found", "Available: calc"],
        exitCode := Option.none } := by
  have h := cli_unknown_handler_message [("calc", calcHandler)] "shop"
    (some "list") ["--x", "1"] rfl
  rw [h]
  rfl

/-! ### C8: --help position on the CLI -/

/-- C8 counterexample: `--help` in a non-leading position does not trigger
help — `shop list --help` is dispatched as a business command. -/
theorem cli_help_later_position_counterexample :
    "--help" ∈ ["shop", "list", "--help"] ∧
    cliRun [] ["shop", "list", "--help"] =
      .businessCommand "shop" "list" ["--help"] ∧
    cliRun [] ["shop", "list", "--help"] ≠ RunAction.generalHelp := by
  refine ⟨by decide, rfl, by decide⟩

/-- C8 amended: `--help` or `-h` triggers help (instead of dispatch) exactly
when it is the first argument; an empty argument vector also shows help. -/
theorem cli_help_first_position (rootMethods : List String)
    (a0 : String) (rest : List String)
    (hh : a0 = "--help" ∨ a0 = "-h") :
    cliRun rootMethods (a0 :: rest) = RunAction.generalHelp := by
  rcases hh with h | h <;> subst h <;> rfl

/-- Closed witness for `cli_help_first_position`. -/
theorem cli_help_first_position_witness :
    cliRun [] ["--help", "shop", "list"] = RunAction.generalHelp :=
  cli_help_first_position [] "--help" ["shop", "list"] (Or.inl rfl)

/-! ### C5: HTTP verb selection and body forwarding -/

/-- C5 counterexample: the spec's read-like list is `list, get, search,
describe`, but the code maps `search` to POST and maps `getapp` (not in the
spec's list) to GET, so "GET exactly for {list, get, search, describe}" fails
in both directions. -/
theorem http_method_for_counterexample :
    ("search" ∈ ["list", "get", "search", "describe"] ∧
      httpMethodFor "search" = "post") ∧
    (¬ "getapp" ∈ ["list", "get", "search", "describe"] ∧
      httpMethodFor "getapp" = "get") := by
  decide

/-- C5 amended: a business method is exposed via GET exactly when its name is
one of `list, get, describe, getapp, members` (POST otherwise); one route per
method of each handler exposing an api; and the parsed JSON request body is
forwarded as the keyword arguments of the resolved callable (empty kwargs
when the body cannot be parsed). -/
theorem http_routes_amended :
    (∀ name, httpMethodFor name = "get" ↔
      name ∈ ["list", "get", "describe", "getapp", "members"]) ∧
    (∀ hname meta, httpChildRoutes [(hname, meta)] =
      if meta.hasInstanceApi then
        meta.methods.map (fun m =>
          (httpMethodFor m, "/" ++ lstripSlashOrSelf hname ++ "/" ++ m))
      else []) ∧
    (∀ (R : Type) (call : List (String × JValue) → R) kwargs,
      httpEndpoint call (some kwargs) = call kwargs) ∧
    (∀ (R : Type) (call : List (String × JValue) → R),
      httpEndpoint call Option.none = call []) := by
  refine ⟨?_, ?_, fun R call kwargs => rfl, fun R call => rfl⟩
  · intro name
    by_cases hm : name ∈ ["list", "get", "describe", "getapp", "members"] <;>
      simp [httpMethodFor, hm]
  · intro hname meta
    cases hmeta : meta.hasInstanceApi <;> simp [httpChildRoutes, hmeta]

/-! ### C6: the validation plugin's registration-time schema -/

/-- On a name-distinct parameter list, `find?` by name recovers the
parameter itself. -/
theorem find_param_of_nodup (params : List PyParam)
    (hnodup : (params.map (·.name)).Nodup) (p : PyParam) (hp : p ∈ params) :
    params.find? (fun q => q.name = p.name) = some p := by
  induction params with
  | nil => cases hp
  | cons q rest ih =>
      rcases List.mem_cons.mp hp with h | h
      · subst h
        simp [List.find?]
      · have hq : ¬ q.name = p.name := by
          intro hc
          have : p.name ∈ rest.map (·.name) := List.mem_map_of_mem _ h
          rw [← hc] at this
          exact (List.nodup_cons.mp hnodup).1 this
        simp [List.find?, hq]
        exact ih (List.nodup_cons.mp hnodup).2 h

/-- The parameter part of the hints list survives the `hints.pop("return")`
filter: no real parameter is named `return`. -/
theorem hints_param_filter (sig : FuncSig)
    (hret : ¬ "return" ∈ sig.params.map (·.name)) :
    ((annotatedParams sig).map (fun pa => (pa.1.name, pa.2))).filter
        (fun nh => nh.1 ≠ "return") =
      (annotatedParams sig).map (fun pa => (pa.1.name, pa.2)) := by
  apply List.filter_eq_self.mpr
  intro nh hmem
  rcases List.mem_map.mp hmem with ⟨pa, hpa, hEq⟩
  rcases List.mem_filterMap.mp hpa with ⟨p, hp, hsome⟩
  have hname : nh.1 = p.name := by
    cases hann : p.ann with
    | none => rw [hann] at hsome; cases hsome
    | some a =>
        rw [hann] at hsome
        simp only [Option.map_some', Option.some.injEq] at hsome
        subst hsome
        rw [← hEq]
  simp only [hname, ne_eq, decide_eq_true_eq]
  intro hc
  exact hret (hc ▸ List.mem_map_of_mem _ hp)

/-- `getTypeHints` splits into the parameter part and the `return` entry. -/
theorem getTypeHints_true (sig : FuncSig) :
    getTypeHints true sig =
      some ((annotatedParams sig).map (fun pa => (pa.1.name, pa.2)) ++
        (match sig.retAnn with
         | some a => [("return", a)]
         | Option.none => [])) := by
  simp only [getTypeHints, annotatedParams, List.map_filterMap, if_true]
  congr 1
  congr 1
  apply List.filterMap_congr
  intro p _
  cases p.ann <;> rfl

/-- C6: `on_decore` stores a disabled marker when type hints cannot be
resolved or no parameter hints remain; otherwise it stores a schema with one
field per annotated parameter — the return annotation and unannotated
parameters (e.g. the implicit `self`/`cursor`) excluded — each field required
exactly when the parameter has no default and carrying the default
otherwise. -/
theorem pydantic_on_decore_schema (resolvable : Bool) (sig : FuncSig)
    (hnodup : (sig.params.map (·.name)).Nodup)
    (hret : ¬ "return" ∈ sig.params.map (·.name)) :
    (onDecore false sig = .disabled) ∧
    (annotatedParams sig = [] → onDecore resolvable sig = .disabled) ∧
    (annotatedParams sig ≠ [] →
      onDecore true sig = .enabled ((annotatedParams sig).map (fun pa =>
        { name := pa.1.name, hint := pa.2, default := pa.1.default }))) := by
  have hfilter :
      ((annotatedParams sig).map (fun pa => (pa.1.name, pa.2)) ++
          (match sig.retAnn with
           | some a => [("return", a)]
           | Option.none => [])).filter (fun nh => nh.1 ≠ "return") =
        (annotatedParams sig).map (fun pa => (pa.1.name, pa.2)) := by
    rw [List.filter_append, hints_param_filter sig hret]
    cases sig.retAnn <;> simp
  refine ⟨by simp [onDecore, getTypeHints], ?_, ?_⟩
  · intro hempty
    cases resolvable with
    | false => simp [onDecore, getTypeHints]
    | true =>
        simp only [onDecore, getTypeHints_true]
        rw [hfilter, hempty]
        simp
  · intro hne
    simp only [onDecore, getTypeHints_true]
    rw [hfilter]
    have hne2 : ((annotatedParams sig).map (fun pa => (pa.1.name, pa.2))).isEmpty = false := by
      cases hn : annotatedParams sig with
      | nil => exact absurd hn hne
      | cons a l => simp [hn]
    simp only [hne2, Bool.false_eq_true, if_false]
    congr 1
    rw [List.map_map]
    apply List.map_congr_left
    intro pa hpa
    rcases List.mem_filterMap.mp hpa with ⟨p, hp, hsome⟩
    cases hann : p.ann with
    | none => rw [hann] at hsome; cases hsome
    | some a =>
        rw [hann] at hsome
        simp only [Option.map_some', Option.some.injEq] at hsome
        subst hsome
        have hfind := find_param_of_nodup sig.params hnodup p hp
        simp only [Function.comp]
        simp only [hfind]
        cases p.default <;> rfl

/-- Closed witness for `pydantic_on_decore_schema`: a two-parameter signature
(`self` unannotated, `name : str` required, `price : float` defaulted) builds
one field per annotated parameter. -/
theorem pydantic_on_decore_schema_witness :
    onDecore true
        { params := [{ name := "self", ann := Option.none, default := Option.none },
                     { name := "name", ann := some "str", default := Option.none },
                     { name := "price", ann := some "float",
                       default := some (PyVal.int 1) }],
          retAnn := some "dict" } =
      .enabled [{ name := "name", hint := "str", default := Option.none },
                { name := "price", hint := "float", default := some (PyVal.int 1) }] := by
  have h := pydantic_on_decore_schema true
    { params := [{ name := "self", ann := Option.none, default := Option.none },
                 { name := "name", ann := some "str", default := Option.none },
                 { name := "price", ann := some "float",
                   default := some (PyVal.int 1) }],
      retAnn := some "dict" } (by decide) (by decide)
  have h3 := h.2.2 (by decide)
  rw [h3]
  rfl

/-! ### C7 / C9: Publisher registry invariants -/

theorem keys_dictSet {α : Type} (d : List (String × α)) (k : String) (v : α) :
    (dictSet d k v).map (·.1) =
      if k ∈ d.map (·.1) then d.map (·.1) else d.map (·.1) ++ [k] := by
  induction d with
  | nil => simp [dictSet]
  | cons p rest ih =>
      by_cases hp : p.1 = k
      · simp [dictSet, hp]
      · have hp2 : ¬ k = p.1 := fun hc => hp hc.symm
        by_cases hk : k ∈ rest.map (·.1) <;>
          simp [dictSet, hp, hp2, hk, ih]

theorem keys_dictRemove {α : Type} (d : List (String × α)) (k : String) :
    (dictRemove d k).map (·.1) = (d.map (·.1)).filter (fun n => n ≠ k) := by
  induction d with
  | nil => rfl
  | cons p rest ih =>
      by_cases hp : p.1 = k <;> simp [dictRemove, hp, ih, List.filter] <;>
        simp [dictRemove] at ih <;> exact ih

/-- One registry operation preserves well-formedness. -/
theorem wellFormed_runOp (s : PubState) (op : PubOp)
    (h : s.wellFormed) : (runOp s op).wellFormed := by
  obtain ⟨hkeys, hslash⟩ := h
  cases op with
  | add name spec args kwargs loadResult =>
      by_cases hdup : name ∈ s.applications.map (·.1)
      · have hres : runOp s (.add name spec args kwargs loadResult) = s := by
          simp [runOp, pubAdd, hdup]
        rw [hres]
        exact ⟨hkeys, hslash⟩
      · by_cases hsl : pyStartsWith name "/" = true
        · have hres : runOp s (.add name spec args kwargs loadResult) = s := by
            simp [runOp, pubAdd, hdup, hsl]
          rw [hres]
          exact ⟨hkeys, hslash⟩
        · have hsl' : pyStartsWith name "/" = false :=
            Bool.eq_false_iff.mpr hsl
          cases loadResult with
          | error e =>
              have hres : runOp s (.add name spec args kwargs (.error e)) = s := by
                simp [runOp, pubAdd, hdup, hsl']
              rw [hres]
              exact ⟨hkeys, hslash⟩
          | ok appmd =>
              have hres : runOp s (.add name spec args kwargs (.ok appmd)) =
                  { applications := dictSet s.applications name appmd.1,
                    metadata := dictSet s.metadata name appmd.2,
                    state := dictSet s.state name
                      { spec := spec, args := args, kwargs := kwargs },
                    children := dictSet s.children name appmd.1,
                    autosave := s.autosave } := by
                simp [runOp, pubAdd, hdup, hsl']
              rw [hres]
              refine ⟨?_, ?_⟩
              · simp only [keys_dictSet, hkeys, hdup]
              · intro k hk
                simp only [keys_dictSet, hdup, if_false] at hk
                rcases List.mem_append.mp hk with h1 | h1
                · exact hslash k h1
                · have hkn : k = name := by simpa using h1
                  rw [hkn]
                  exact hsl'
  | remove name =>
      by_cases hmem : name ∈ s.applications.map (·.1)
      · have hres : runOp s (.remove name) =
            { applications := dictRemove s.applications name,
              metadata := dictRemove s.metadata name,
              state := dictRemove s.state name,
              children := dictRemove s.children name,
              autosave := s.autosave } := by
          simp [runOp, pubRemove, hmem]
        rw [hres]
        refine ⟨?_, ?_⟩
        · simp only [keys_dictRemove, hkeys]
        · intro k hk
          simp only [keys_dictRemove] at hk
          exact hslash k (List.mem_of_mem_filter hk)
      · have hres : runOp s (.remove name) = s := by
          simp [runOp, pubRemove, hmem]
        rw [hres]
        exact ⟨hkeys, hslash⟩

/-- Well-formedness holds along any `/add`-`/remove` history from a fresh
Publisher. -/
theorem wellFormed_runOps (auto : Bool) (ops : List PubOp) :
    (runOps (PubState.initial auto) ops).wellFormed := by
  suffices h : ∀ (s : PubState), s.wellFormed → (runOps s ops).wellFormed by
    exact h _ (by constructor <;> simp [PubState.initial])
  induction ops with
  | nil => intro s hs; exact hs
  | cons op rest ih =>
      intro s hs
      exact ih _ (wellFormed_runOp s op hs)

/-- C9: after any sequence of `/add` and `/remove` operations, no registered
application name starts with `/`; and `/add` with a duplicate name or a
`/`-name raises `ValueError` leaving `applications`, `_metadata` and `_state`
(and the router children) unchanged. -/
theorem publisher_add_remove_invariant :
    (∀ (auto : Bool) (ops : List PubOp) (k : String),
      k ∈ (runOps (PubState.initial auto) ops).applications.map (·.1) →
      pyStartsWith k "/" = false) ∧
    (∀ (loader : AppLoader) (s : PubState) (name spec : String)
        (args : List JValue) (kwargs : List (String × JValue)),
      (name ∈ s.applications.map (·.1) ∨ pyStartsWith name "/" = true) →
      (∃ msg, pubAdd loader s name spec args kwargs = .error msg)) ∧
    (∀ (s : PubState) (name spec : String) (args : List JValue)
        (kwargs : List (String × JValue))
        (loadResult : Except String (Nat × AppMetadata)),
      (name ∈ s.applications.map (·.1) ∨ pyStartsWith name "/" = true) →
      runOp s (.add name spec args kwargs loadResult) = s) := by
  refine ⟨?_, ?_, ?_⟩
  · intro auto ops k hk
    exact (wellFormed_runOps auto ops).2 k hk
  · intro loader s name spec args kwargs h
    rcases h with h | h
    · exact ⟨"App '" ++ name ++ "' already registered", by simp [pubAdd, h]⟩
    · by_cases hdup : name ∈ s.applications.map (·.1)
      · exact ⟨"App '" ++ name ++ "' already registered", by simp [pubAdd, hdup]⟩
      · exact ⟨"App names cannot start with '/' because those are reserved commands",
          by simp [pubAdd, hdup, h]⟩
  · intro s name spec args kwargs loadResult h
    rcases h with h | h
    · simp [runOp, pubAdd, h]
    · by_cases hdup : name ∈ s.applications.map (·.1)
      · simp [runOp, pubAdd, hdup]
      · simp [runOp, pubAdd, hdup, h]

/-- Closed witness for `publisher_add_remove_invariant`: a fresh Publisher
after one successful `/add`, then a duplicate `/add` and a `/grab` add both
rejected with the registry untouched. -/
theorem publisher_add_remove_invariant_witness :
    (pyStartsWith "x" "/" = false) ∧
    (∃ msg, pubAdd (fun _ _ _ => .ok (1, ⟨"p", "m", "Main"⟩))
        (runOps (PubState.initial true)
          [.add "x" "m.py" [] [] (.ok (1, ⟨"p", "m", "Main"⟩))])
        "x" "m.py" [] [] = .error msg) ∧
    (runOp (PubState.initial true) (.add "/grab" "m.py" [] []
        (.ok (1, ⟨"p", "m", "Main"⟩))) = PubState.initial true) := by
  have h := publisher_add_remove_invariant
  refine ⟨?_, ?_, ?_⟩
  · exact h.1 true [.add "x" "m.py" [] [] (.ok (1, ⟨"p", "m", "Main"⟩))] "x"
      (by decide)
  · exact h.2.1 (fun _ _ _ => .ok (1, ⟨"p", "m", "Main"⟩)) _ "x" "m.py" [] []
      (Or.inl (by decide))
  · exact h.2.2 (PubState.initial true) "/grab" "m.py" [] []
      (.ok (1, ⟨"p", "m", "Main"⟩)) (Or.inr (by decide))

/-- C7: `savestate` serialises exactly
`{"version": 1, "autosave": <bool>, "apps": [...]}` with one entry per
registered application, each carrying the keys `name`, `spec`, `args`,
`kwargs` (the `_state`-tracks-`applications` hypothesis holds on every
reachable registry by `wellFormed_runOps`). -/
theorem savestate_payload_shape (s : PubState)
    (hwf : s.state.map (·.1) = s.applications.map (·.1)) :
    ∃ apps : List JValue,
      writeStatePayload s =
        .obj [("version", .num 1), ("autosave", .bool s.autosave),
              ("apps", .arr apps)] ∧
      apps.map (fun e => e.lookup "name") =
        s.applications.map (fun p => some (.str p.1)) ∧
      ∀ e ∈ apps, ∃ n sp ar kw,
        e = .obj [("name", .str n), ("spec", .str sp),
                  ("args", ar), ("kwargs", kw)] := by
  refine ⟨_, rfl, ?_, ?_⟩
  · have hrw : s.applications.map (fun p => some (JValue.str p.1)) =
        (s.state.map (·.1)).map (fun n => some (JValue.str n)) := by
      rw [hwf, List.map_map]
      apply List.map_congr_left
      intro p _
      rfl
    rw [hrw]
    simp only [List.map_map]
    apply List.map_congr_left
    intro nst _
    rfl
  · intro e he
    rcases List.mem_map.mp he with ⟨nst, _, hEq⟩
    exact ⟨nst.1, nst.2.spec, .arr nst.2.args, .obj nst.2.kwargs, hEq.symm⟩

/-- Closed witness for `savestate_payload_shape` on a one-app registry. -/
theorem savestate_payload_shape_witness :
    ∃ apps : List JValue,
      writeStatePayload
          { applications := [("shop", 1)],
            metadata := [("shop", ⟨"/tmp/shop.py", "shop", "Main"⟩)],
            state := [("shop", { spec := "/tmp/shop.py:Main", args := [],
                                 kwargs := [] })],
            children := [("shop", 1)], autosave := true } =
        .obj [("version", .num 1), ("autosave", .bool true), ("apps", .arr apps)] ∧
      apps.map (fun e => e.lookup "name") = [some (.str "shop")] ∧
      ∀ e ∈ apps, ∃ n sp ar kw,
        e = .obj [("name", .str n), ("spec", .str sp),
                  ("args", ar), ("kwargs", kw)] := by
  have h := savestate_payload_shape
    { applications := [("shop", 1)],
      metadata := [("shop", ⟨"/tmp/shop.py", "shop", "Main"⟩)],
      state := [("shop", { spec := "/tmp/shop.py:Main", args := [],
                           kwargs := [] })],
      children := [("shop", 1)], autosave := true } rfl
  rcases h with ⟨apps, h1, h2, h3⟩
  exact ⟨apps, h1, h2, h3⟩

/-! ### C10: loadstate error handling -/

theorem dictGet_eq_none_iff {α : Type} (d : List (String × α)) (k : String) :
    dictGet d k = Option.none ↔ ¬ k ∈ d.map (·.1) := by
  simp only [dictGet, Option.map_eq_none', List.find?_eq_none, List.mem_map]
  constructor
  · rintro h ⟨p, hp, hk⟩
    have h2 : ¬ p.1 = k := by simpa using h p hp
    exact h2 hk
  · intro h p hp
    simp only [decide_eq_true_eq]
    intro hc
    exact h ⟨p, hp, hc⟩

theorem mem_keys_of_dictGet_some {α : Type} (d : List (String × α)) (k : String)
    (v : α) (h : dictGet d k = some v) : k ∈ d.map (·.1) := by
  by_contra hmem
  rw [(dictGet_eq_none_iff d k).mpr hmem] at h
  cases h

/-- C10 counterexample: a state file containing just `5` is valid JSON and
has no list-valued `apps` key, yet `loadstate` does not return an error dict:
the membership test `"apps" not in snapshot` raises `TypeError` (the registry
is still left unchanged). -/
theorem loadstate_scalar_counterexample :
    loadstate (fun _ _ _ => .error "loader") (PubState.initial true) "state.json"
        (.parsed (.num 5)) false =
      (PubState.initial true,
       .error "TypeError: argument of type 'int' is not iterable") := by
  rfl

/-- C10 amended: when the state file is missing, unparsable, or parses to a
JSON object without a list-valued `apps` key, `loadstate` returns a dict with
an `error` key and the registry is untouched (it is cleared only after the
shape check passes); when the snapshot is a non-container scalar the
membership test itself raises `TypeError`, with the registry still
untouched. -/
theorem loadstate_error_cases (loader : AppLoader) (s : PubState)
    (pathStr : String) (skipMissing : Bool) :
    (loadstate loader s pathStr .missing skipMissing =
      (s, .ok (.obj [("error", .str "State file not found"),
                     ("path", .str pathStr)]))) ∧
    (∀ msg, loadstate loader s pathStr (.invalid msg) skipMissing =
      (s, .ok (.obj [("error", .str ("Invalid state file: " ++ msg)),
                     ("path", .str pathStr)]))) ∧
    (∀ fields : List (String × JValue),
      (match dictGet fields "apps" with
       | some (.arr _) => False
       | _ => True) →
      loadstate loader s pathStr (.parsed (.obj fields)) skipMissing =
        (s, .ok (.obj [("error", .str "Malformed state: missing 'apps' list"),
                       ("path", .str pathStr)]))) ∧
    (∀ n : Int, loadstate loader s pathStr (.parsed (.num n)) skipMissing =
      (s, .error "TypeError: argument of type 'int' is not iterable")) := by
  refine ⟨rfl, fun msg => rfl, ?_, fun n => rfl⟩
  intro fields hshape
  cases hg : dictGet fields "apps" with
  | none =>
      have hmem : ¬ "apps" ∈ fields.map (·.1) := (dictGet_eq_none_iff _ _).mp hg
      simp [loadstate, pyContainsStr, hmem]
  | some v =>
      have hmem : "apps" ∈ fields.map (·.1) := mem_keys_of_dictGet_some _ _ _ hg
      rw [hg] at hshape
      cases v with
      | arr xs => exact absurd hshape (by simp)
      | null => simp [loadstate, pyContainsStr, pySubscriptStr, hmem, hg]
      | bool b => simp [loadstate, pyContainsStr, pySubscriptStr, hmem, hg]
      | num n => simp [loadstate, pyContainsStr, pySubscriptStr, hmem, hg]
      | str t => simp [loadstate, pyContainsStr, pySubscriptStr, hmem, hg]
      | obj fs => simp [loadstate, pyContainsStr, pySubscriptStr, hmem, hg]

/-- Closed witness for `loadstate_error_cases`: a snapshot object whose
`apps` key holds a number yields the malformed-state error dict with the
registry unchanged. -/
theorem loadstate_error_cases_witness :
    loadstate (fun _ _ _ => .error "L") (PubState.initial true) "p"
        (.parsed (.obj [("apps", .num 3)])) false =
      (PubState.initial true,
       .ok (.obj [("error", .str "Malformed state: missing 'apps' list"),
                  ("path", .str "p")])) := by
  have h := loadstate_error_cases (fun _ _ _ => .error "L")
    (PubState.initial true) "p" false
  exact h.2.2.1 [("apps", .num 3)] trivial

/-- C1: through the dbop wrapper, when `cursor` is absent from kwargs or bound
to `None`, the kwargs passed to the inner function carry the cursor obtained
from `instance.db.cursor()` (and the `.cursor()` call is issued); when the
inner function returns successfully the wrapper returns its value and
`db.commit()` is called if and only if the `autocommit` kwargs value
(defaulting to `False`) is truthy. -/
theorem dbop_cursor_injection_and_autocommit
    (funcName : String) (inner : List PyVal → Kwargs → Except PyExc PyVal)
    (a : PyVal) (rest : List PyVal) (inst : HandlerInstance) (kwargs : Kwargs)
    (hdb : inst.hasDb = true) :
    (dbopInjects kwargs = true →
      dbopEffectiveKwargs inst.db kwargs = kwSet kwargs "cursor" inst.db.cursorVal ∧
      DbEvent.cursorCall ∈ (dbopWrapper funcName inner (a :: rest) inst kwargs).events) ∧
    (∀ r, inner (a :: rest) (dbopEffectiveKwargs inst.db kwargs) = .ok r →
      (dbopWrapper funcName inner (a :: rest) inst kwargs).result = .ok r ∧
      (DbEvent.commit ∈ (dbopWrapper funcName inner (a :: rest) inst kwargs).events ↔
        ((kwGet kwargs "autocommit").getD (PyVal.bool false)).truthy = true)) := by
  have hgd : (match kwGet kwargs "autocommit" with
      | some v => v
      | Option.none => PyVal.bool false) =
        (kwGet kwargs "autocommit").getD (PyVal.bool false) := by
    cases kwGet kwargs "autocommit" <;> rfl
  constructor
  · intro hinj
    refine ⟨by simp [dbopEffectiveKwargs, dbopInjects] at hinj ⊢; tauto, ?_⟩
    cases hr : inner (a :: rest) (dbopEffectiveKwargs inst.db kwargs) with
    | ok r =>
        by_cases hac : ((kwGet kwargs "autocommit").getD (PyVal.bool false)).truthy = true <;>
          simp [dbopWrapper, hdb, hr, hgd, hac, hinj]
    | error e => simp [dbopWrapper, hdb, hr, hinj]
  · intro r hr
    by_cases hac : ((kwGet kwargs "autocommit").getD (PyVal.bool false)).truthy = true <;>
      by_cases hinj : dbopInjects kwargs = true <;>
      simp [dbopWrapper, hdb, hr, hgd, hac, hinj]

/-- Closed witness for `dbop_cursor_injection_and_autocommit`: a call with no
cursor in kwargs and `autocommit=True` injects `db.cursor()` and commits. -/
theorem dbop_cursor_injection_and_autocommit_witness :
    (dbopEffectiveKwargs ⟨PyVal.cursor 7, false⟩ [("autocommit", PyVal.bool true)] =
      kwSet [("autocommit", PyVal.bool true)] "cursor" (PyVal.cursor 7)) ∧
    ((dbopWrapper "add" (fun _ _ => .ok (PyVal.int 1)) [PyVal.int 0]
        ⟨true, ⟨PyVal.cursor 7, false⟩⟩ [("autocommit", PyVal.bool true)]).result =
      .ok (PyVal.int 1)) ∧
    (DbEvent.commit ∈ (dbopWrapper "add" (fun _ _ => .ok (PyVal.int 1)) [PyVal.int 0]
        ⟨true, ⟨PyVal.cursor 7, false⟩⟩ [("autocommit", PyVal.bool true)]).events) := by
  have h := dbop_cursor_injection_and_autocommit "add" (fun _ _ => .ok (PyVal.int 1))
    (PyVal.int 0) [] ⟨true, ⟨PyVal.cursor 7, false⟩⟩ [("autocommit", PyVal.bool true)] rfl
  exact ⟨(h.1 (by decide)).1, (h.2 (PyVal.int 1) rfl).1,
    ((h.2 (PyVal.int 1) rfl).2).mpr (by decide)⟩

/-- C2: when the inner function raises, the wrapper attempts `db.rollback()`,
never calls `db.commit()`, re-raises the original exception unchanged, and
behaves identically whether or not the rollback itself raises (the secondary
failure is swallowed). -/
theorem dbop_rollback_on_exception
    (funcName : String) (inner : List PyVal → Kwargs → Except PyExc PyVal)
    (a : PyVal) (rest : List PyVal) (inst : HandlerInstance) (kwargs : Kwargs)
    (e : PyExc)
    (hdb : inst.hasDb = true)
    (herr : inner (a :: rest) (dbopEffectiveKwargs inst.db kwargs) = .error e) :
    (dbopWrapper funcName inner (a :: rest) inst kwargs).result = .error e ∧
    DbEvent.rollback ∈ (dbopWrapper funcName inner (a :: rest) inst kwargs).events ∧
    ¬ DbEvent.commit ∈ (dbopWrapper funcName inner (a :: rest) inst kwargs).events ∧
    (∀ b : Bool,
      dbopWrapper funcName inner (a :: rest)
          ⟨inst.hasDb, ⟨inst.db.cursorVal, b⟩⟩ kwargs =
        dbopWrapper funcName inner (a :: rest) inst kwargs) := by
  refine ⟨?_, ?_, ?_, ?_⟩
  · simp [dbopWrapper, hdb, herr]
  · by_cases hinj : dbopInjects kwargs = true <;>
      simp [dbopWrapper, hdb, herr, hinj]
  · by_cases hinj : dbopInjects kwargs = true <;>
      simp [dbopWrapper, hdb, herr, hinj]
  · intro b
    have heff : dbopEffectiveKwargs ⟨inst.db.cursorVal, b⟩ kwargs =
        dbopEffectiveKwargs inst.db kwargs := by
      simp [dbopEffectiveKwargs]
    simp [dbopWrapper, hdb, heff, herr]

/-- Closed witness for `dbop_rollback_on_exception`: a failing inner call with
a rollback that itself raises still propagates the original exception. -/
theorem dbop_rollback_on_exception_witness :
    ((dbopWrapper "add" (fun _ _ => .error (.userExc 3)) [PyVal.int 0]
        ⟨true, ⟨PyVal.cursor 7, true⟩⟩ []).result = .error (.userExc 3)) ∧
    (DbEvent.rollback ∈ (dbopWrapper "add" (fun _ _ => .error (.userExc 3)) [PyVal.int 0]
        ⟨true, ⟨PyVal.cursor 7, true⟩⟩ []).events) ∧
    (¬ DbEvent.commit ∈ (dbopWrapper "add" (fun _ _ => .error (.userExc 3)) [PyVal.int 0]
        ⟨true, ⟨PyVal.cursor 7, true⟩⟩ []).events) := by
  have h := dbop_rollback_on_exception "add" (fun _ _ => .error (.userExc 3))
    (PyVal.int 0) [] ⟨true, ⟨PyVal.cursor 7, true⟩⟩ [] (.userExc 3) rfl rfl
  exact ⟨h.1, h.2.1, h.2.2.1⟩

end Smpub
